import Mathlib

/-!
A formal model of `mulysu` (src/mulysu.py): a song database with
community-rated resources.  Python dataclasses become Lean structures,
Python `int` becomes `Int`, optional strings become `Option String`,
and the mutable `SongDatabase.songs` list is threaded explicitly as a
`List Song`.  Interactive `input()` calls become explicit string
parameters; `print` output is recorded as outcome tags.
-/

/-- Mirrors the `Resource` dataclass: type, url, language, votes (default 0),
optional content (default `None`). -/
structure Resource where
  type : String
  url : String
  language : String
  votes : Int := 0
  content : Option String := none
  deriving DecidableEq, Repr

/-- Mirrors the `Song` dataclass. -/
structure Song where
  artist : String
  song : String
  artist_original : String
  song_original : String
  resources : List Resource := []
  deriving DecidableEq, Repr

/-- Python's ordinal (code-point lexicographic) `<` on strings, as an
executable comparison on the underlying character lists. -/
def charListLt : List Char → List Char → Bool
  | _, [] => false
  | [], _ :: _ => true
  | a :: as, b :: bs => decide (a < b) || (decide (a = b) && charListLt as bs)

/-- Python `s1 < s2` on strings: ordinal comparison of code points. -/
def strLt (a b : String) : Bool := charListLt a.data b.data

lemma charListLt_iff_lex : ∀ as bs : List Char, charListLt as bs = true ↔ List.Lex (· < ·) as bs
  | _ :: _, [] => by simp [charListLt]
  | [], [] => by simp [charListLt]
  | [], _ :: _ => by simp [charListLt]; exact List.Lex.nil
  | a :: as, b :: bs => by
    simp only [charListLt, Bool.or_eq_true, Bool.and_eq_true, decide_eq_true_eq]
    constructor
    · rintro (h | ⟨rfl, h⟩)
      · exact List.Lex.rel h
      · exact List.Lex.cons ((charListLt_iff_lex as bs).mp h)
    · intro h
      cases h with
      | rel h => exact Or.inl h
      | cons h => exact Or.inr ⟨rfl, (charListLt_iff_lex as bs).mpr h⟩

/-- `strLt` agrees with the (Mathlib) linear order on `String`, which is also
code-point lexicographic. -/
lemma strLt_iff {a b : String} : strLt a b = true ↔ a < b := by
  rw [strLt, String.lt_iff_toList_lt]
  exact charListLt_iff_lex a.data b.data

lemma strLt_eq_false_iff {a b : String} : strLt a b = false ↔ b ≤ a := by
  rw [← not_lt, ← strLt_iff, Bool.not_eq_true, Bool.eq_false_iff, ne_eq, Bool.not_eq_true]

/-- The `compare` comparator inside `SongDatabase._sort_resources`:
first by votes descending (`r2.votes - r1.votes`), then by type via
`(r1.type > r2.type) - (r1.type < r2.type)` (ordinal string comparison). -/
def resCompare (r1 r2 : Resource) : Int :=
  if r1.votes ≠ r2.votes then r2.votes - r1.votes
  else (if strLt r2.type r1.type then (1 : Int) else 0) - (if strLt r1.type r2.type then 1 else 0)

/-- The order induced by `resCompare`: r1 may come no later than r2 exactly when
the comparator is non-positive.  Python `sorted` with `cmp_to_key(compare)` is
the stable sort with respect to exactly this relation. -/
def resLe (r1 r2 : Resource) : Prop := resCompare r1 r2 ≤ 0

instance : DecidableRel resLe := fun r1 r2 =>
  inferInstanceAs (Decidable (resCompare r1 r2 ≤ 0))

/-- `SongDatabase._sort_resources`: Python's `sorted` is a stable sort; we model
it by `List.insertionSort`, which is also stable (see
`List.pair_sublist_insertionSort`), hence produces the identical output. -/
def sort_resources (resources : List Resource) : List Resource :=
  resources.insertionSort resLe

lemma resLe_iff {a b : Resource} :
    resLe a b ↔ b.votes < a.votes ∨ (a.votes = b.votes ∧ a.type ≤ b.type) := by
  unfold resLe resCompare
  by_cases hv : a.votes = b.votes
  · rw [hv]
    simp only [ne_eq, not_true_eq_false, if_false, lt_irrefl, false_or, true_and]
    rcases hb : strLt b.type a.type with _ | _
    · have hle := strLt_eq_false_iff.mp hb
      rcases hl : strLt a.type b.type with _ | _ <;> simp [hl, hle]
    · have hlt := strLt_iff.mp hb
      have hl : strLt a.type b.type = false := by
        rcases h : strLt a.type b.type with _ | _
        · rfl
        · exact absurd (strLt_iff.mp h) (not_lt_of_lt hlt)
      simp [hl, not_le_of_lt hlt]
  · simp only [ne_eq, hv, not_false_eq_true, if_true, false_and, or_false]
    omega

instance : IsTotal Resource resLe :=
  ⟨fun a b => by
    rw [resLe_iff, resLe_iff]
    rcases lt_trichotomy a.votes b.votes with h | h | h
    · right; left; omega
    · rcases le_total a.type b.type with ht | ht
      · left; exact Or.inr ⟨h, ht⟩
      · right; exact Or.inr ⟨h.symm, ht⟩
    · left; left; omega⟩

instance : IsTrans Resource resLe :=
  ⟨fun a b c hab hbc => by
    rw [resLe_iff] at *
    rcases hab with h1 | ⟨h1, h1'⟩ <;> rcases hbc with h2 | ⟨h2, h2'⟩
    · left; omega
    · left; omega
    · left; omega
    · right; exact ⟨h1.trans h2, le_trans h1' h2'⟩⟩

/-- C1: `sort_resources` returns a permutation of its input, sorted by votes
descending with ties broken by type ascending (ordinal); it is stable (tied
pairs keep their input order), idempotent, and on the concrete example
`[subs(2), lyrics(2), sync(5)]` yields `[sync, lyrics, subs]`. -/
theorem sort_resources_spec (rs : List Resource) :
    (sort_resources rs).Perm rs
    ∧ (sort_resources rs).Pairwise
        (fun a b => b.votes < a.votes ∨ (a.votes = b.votes ∧ a.type ≤ b.type))
    ∧ (∀ a b, resCompare a b = 0 → [a, b].Sublist rs → [a, b].Sublist (sort_resources rs))
    ∧ sort_resources (sort_resources rs) = sort_resources rs
    ∧ sort_resources
        [⟨"vid.subs", "u1", "en", 2, none⟩, ⟨"vid.lyrics", "u2", "en", 2, none⟩,
         ⟨"vid.sync", "u3", "en", 5, none⟩]
      = [⟨"vid.sync", "u3", "en", 5, none⟩, ⟨"vid.lyrics", "u2", "en", 2, none⟩,
         ⟨"vid.subs", "u1", "en", 2, none⟩] := by
  refine ⟨List.perm_insertionSort resLe rs, ?_, ?_, ?_, by decide⟩
  · have h := List.sorted_insertionSort resLe rs
    exact h.imp (fun hle => resLe_iff.mp hle)
  · intro a b hcmp hsub
    apply List.pair_sublist_insertionSort _ hsub
    unfold resLe
    omega
  · exact List.Sorted.insertionSort_eq (List.sorted_insertionSort resLe rs)

/-- Witness for `sort_resources_spec`: the stability conjunct applied to a
concrete tied pair. -/
theorem sort_resources_spec_witness :
    [Resource.mk "a" "u1" "en" 3 none, Resource.mk "a" "u2" "en" 3 none].Sublist
      (sort_resources
        [⟨"b", "u0", "en", 9, none⟩, ⟨"a", "u1", "en", 3, none⟩, ⟨"a", "u2", "en", 3, none⟩]) :=
  (sort_resources_spec
      [⟨"b", "u0", "en", 9, none⟩, ⟨"a", "u1", "en", 3, none⟩, ⟨"a", "u2", "en", 3, none⟩]).2.2.1
    ⟨"a", "u1", "en", 3, none⟩ ⟨"a", "u2", "en", 3, none⟩ (by decide) (by decide)

/-- Python `str.lower()` (modelled for ASCII letters, where Lean's
`Char.toLower` and Python agree). -/
def pyLower (s : String) : String := ⟨s.data.map Char.toLower⟩

/-- Python's `needle in hay` on strings: substring containment. -/
def strIn (needle hay : String) : Bool := decide (needle.data <:+: hay.data)

/-- The match test inside the loop of `SongDatabase.search`: the (already
lower-cased) query occurs in one of the four lower-cased text fields. -/
def songMatches (query : String) (song : Song) : Bool :=
  strIn query (pyLower song.artist) || strIn query (pyLower song.song) ||
  strIn query (pyLower song.artist_original) || strIn query (pyLower song.song_original)

/-- `SongDatabase.search`: lower-case the query, then keep, in order, exactly
the matching songs (the Python loop accumulating `results` is a filter). -/
def search (songs : List Song) (query : String) : List Song :=
  songs.filter (fun song => songMatches (pyLower query) song)

/-- C3: `search` returns exactly the songs with the lower-cased query a
substring of one of the four lower-cased fields, the empty query returns every
song, and the result is a sublist of (so preserves the order of) the
collection, which is not mutated. -/
theorem search_spec (songs : List Song) (query : String) :
    (∀ s, s ∈ search songs query ↔ s ∈ songs ∧
      ((pyLower query).data <:+: (pyLower s.artist).data
        ∨ (pyLower query).data <:+: (pyLower s.song).data
        ∨ (pyLower query).data <:+: (pyLower s.artist_original).data
        ∨ (pyLower query).data <:+: (pyLower s.song_original).data))
    ∧ search songs "" = songs
    ∧ (search songs query).Sublist songs := by
  refine ⟨?_, ?_, List.filter_sublist _⟩
  · intro s
    simp [search, songMatches, strIn, List.mem_filter, or_assoc]
  · apply List.filter_eq_self.mpr
    intro a _
    simp [songMatches, strIn, pyLower]

/-- Raw `input()` answers collected for one resource inside `add_song`. -/
structure ResourceInput where
  type : String
  url : String
  language : String
  content : String
  deriving DecidableEq, Repr

/-- Python `str.strip()`: whitespace removed from both ends. -/
def pyStrip (s : String) : String :=
  ⟨((s.data.dropWhile Char.isWhitespace).reverse.dropWhile Char.isWhitespace).reverse⟩

/-- Outcome of a mutating `SongDatabase` operation: the collection afterwards
and whether `save()` was called. -/
structure AddResult where
  songs : List Song
  saved : Bool
  deriving DecidableEq, Repr

/-- `SongDatabase.add_song` with the interactive `input()` calls replaced by
explicit arguments: the four name answers and the list of resource entries the
user typed (the y/n loop only fixes that list's length).  A blank (stripped)
artist or song name aborts before anything is appended or saved; otherwise the
new song, with all votes 0, is appended and the collection saved. -/
def add_song (songs : List Song) (artistIn artistOrigIn songIn songOrigIn : String)
    (resourceIns : List ResourceInput) : AddResult :=
  let artist := pyStrip artistIn
  if artist = "" then ⟨songs, false⟩
  else
    let artist_original := if pyStrip artistOrigIn = "" then artist else pyStrip artistOrigIn
    let song_name := pyStrip songIn
    if song_name = "" then ⟨songs, false⟩
    else
      let song_original := if pyStrip songOrigIn = "" then song_name else pyStrip songOrigIn
      let resources := resourceIns.map (fun ri =>
        { type := pyStrip ri.type, url := pyStrip ri.url,
          language := if pyStrip ri.language = "" then "en" else pyStrip ri.language,
          votes := 0,
          content := if pyStrip ri.content = "" then none else some (pyStrip ri.content) })
      ⟨songs ++ [{ artist := artist, song := song_name, artist_original := artist_original,
                   song_original := song_original, resources := resources }], true⟩

/-- C7: a blank (empty after stripping) artist name or song name makes
`add_song` abort: the collection is returned unchanged and `save()` is not
called. -/
theorem add_song_blank_spec (songs : List Song) (aIn aoIn sIn soIn : String)
    (ris : List ResourceInput) (h : pyStrip aIn = "" ∨ pyStrip sIn = "") :
    add_song songs aIn aoIn sIn soIn ris = ⟨songs, false⟩ := by
  rcases h with h | h
  · simp [add_song, h]
  · unfold add_song
    by_cases ha : pyStrip aIn = ""
    · simp [ha]
    · simp [ha, h]

/-- Witness for `add_song_blank_spec`: adding with a whitespace-only artist
name leaves a concrete collection unchanged and unsaved. -/
theorem add_song_blank_spec_witness :
    add_song [{ artist := "A", song := "S", artist_original := "A",
                song_original := "S", resources := [] }]
        "   " "x" "y" "z" [] =
      ⟨[{ artist := "A", song := "S", artist_original := "A",
          song_original := "S", resources := [] }], false⟩ :=
  add_song_blank_spec _ "   " "x" "y" "z" [] (Or.inl (by decide))

/-- Digit tail accepted by Python `int()` after the first digit: ASCII digits
with single underscores strictly between digits. -/
def digitsTail : List Char → Bool
  | [] => true
  | ['_'] => false
  | '_' :: c :: cs => c.isDigit && digitsTail cs
  | c :: cs => c.isDigit && digitsTail cs

/-- A valid unsigned digit group for Python `int()`: non-empty, ASCII digits,
underscores only strictly between digits. -/
def digitsOk : List Char → Bool
  | [] => false
  | c :: cs => c.isDigit && digitsTail cs

/-- Numeric value of a digit group (underscore separators skipped). -/
def digitsVal (cs : List Char) : Nat :=
  (cs.filter (fun c => c != '_')).foldl (fun n c => 10 * n + (c.toNat - 48)) 0

/-- Python `int(s)`: strip whitespace, optional single sign, digits;
`none` models the `ValueError` branch.  (Non-ASCII digits, which Python also
accepts, are outside this model.) -/
def pyInt (s : String) : Option Int :=
  match (pyStrip s).data with
  | '-' :: rest => if digitsOk rest then some (-(digitsVal rest : Int)) else none
  | '+' :: rest => if digitsOk rest then some (digitsVal rest : Int) else none
  | rest => if digitsOk rest then some (digitsVal rest : Int) else none

/-- First element satisfying `p`, with its index: the shape of both relocation
loops in `vote_on_resource` (`for i, song in enumerate(self.songs)` and
`for k, resource in enumerate(song.resources)`). -/
def findFirst {α : Type} (p : α → Bool) : List α → Option (Nat × α)
  | [] => none
  | x :: xs => if p x then some (0, x) else (findFirst p xs).map (fun q => (q.1 + 1, q.2))

/-- The song relocation test: `song.artist == selected_song.artist and
song.song == selected_song.song`. -/
def songKeyMatch (sel s : Song) : Bool := s.artist == sel.artist && s.song == sel.song

/-- The resource relocation test: `resource.type == selected_resource.type and
resource.url == selected_resource.url`. -/
def resKeyMatch (sel r : Resource) : Bool := r.type == sel.type && r.url == sel.url

/-- What `vote_on_resource` printed / did.  `unreachableFallthrough` stands for
the source's fall-through paths where a relocation loop finds no match (there
the Python code would keep iterating the outer loop or silently return);
`vote_never_falls_through` proves these paths cannot be taken. -/
inductive VoteOutcome where
  | emptyDb
  | emptyQuery
  | noMatches
  | invalidSongChoice
  | noResources
  | invalidResourceChoice
  | valueError
  | voted (newVotes : Int)
  | unreachableFallthrough
  deriving DecidableEq, Repr

/-- Result of a vote operation: collection afterwards, what was reported,
whether `save()` ran. -/
structure VoteResult where
  songs : List Song
  outcome : VoteOutcome
  saved : Bool
  deriving DecidableEq, Repr

instance : Inhabited Resource := ⟨⟨"", "", "", 0, none⟩⟩

instance : Inhabited Song := ⟨⟨"", "", "", "", []⟩⟩

/-- The part of `SongDatabase.vote_on_resource` from `if not song.resources:`
on, once the relocation loop has matched the song at index `i`: display the
ranked resources, parse the 1-based ranked index, re-locate the chosen ranked
entry in the stored list by (type, url) and increment the first match. -/
def voteResourcePhase (songs : List Song) (i : Nat) (song : Song)
    (resChoiceIn : String) : VoteResult :=
  if song.resources = [] then ⟨songs, .noResources, false⟩
  else
    match pyInt resChoiceIn with
    | none => ⟨songs, .valueError, false⟩
    | some m =>
      if 0 ≤ m - 1 ∧ m - 1 < (sort_resources song.resources).length then
        match findFirst
            (resKeyMatch ((sort_resources song.resources).getD (m - 1).toNat default))
            song.resources with
        | none => ⟨songs, .unreachableFallthrough, false⟩
        | some (k, r) =>
          ⟨songs.set i { song with resources := song.resources.set k { r with votes := r.votes + 1 } },
           .voted (r.votes + 1), true⟩
      else ⟨songs, .invalidResourceChoice, false⟩

/-- `SongDatabase.vote_on_resource`, with the three `input()` calls replaced by
explicit raw strings: the search query, the song selection and the resource
selection.  Every early `return` becomes an outcome tag with the collection
unchanged and `saved = false`. -/
def vote_on_resource (songs : List Song) (queryIn songChoiceIn resChoiceIn : String) :
    VoteResult :=
  if songs = [] then ⟨songs, .emptyDb, false⟩
  else
    let query := pyLower (pyStrip queryIn)
    if query = "" then ⟨songs, .emptyQuery, false⟩
    else
      let results := search songs query
      if results = [] then ⟨songs, .noMatches, false⟩
      else
        match pyInt songChoiceIn with
        | none => ⟨songs, .valueError, false⟩
        | some n =>
          if 0 ≤ n - 1 ∧ n - 1 < results.length then
            match findFirst (songKeyMatch (results.getD (n - 1).toNat default)) songs with
            | none => ⟨songs, .unreachableFallthrough, false⟩
            | some (i, song) => voteResourcePhase songs i song resChoiceIn
          else ⟨songs, .invalidSongChoice, false⟩

lemma findFirst_eq_some {α : Type} (p : α → Bool) :
    ∀ {xs : List α} {i : Nat} {x : α}, findFirst p xs = some (i, x) →
      xs[i]? = some x ∧ p x = true ∧
        ∀ j, j < i → ∀ y, xs[j]? = some y → p y = false
  | [], i, x, h => by simp [findFirst] at h
  | a :: as, i, x, h => by
    rw [findFirst] at h
    by_cases hp : p a
    · rw [if_pos hp] at h
      obtain ⟨rfl, rfl⟩ := Prod.mk.injEq .. ▸ Option.some.inj h
      exact ⟨by simp, hp, fun j hj => by omega⟩
    · rw [if_neg hp] at h
      obtain ⟨⟨i', x'⟩, hf, hix⟩ := Option.map_eq_some'.mp h
      obtain ⟨rfl, rfl⟩ := Prod.mk.injEq .. ▸ hix
      obtain ⟨hget, hpx, hmin⟩ := findFirst_eq_some p hf
      refine ⟨by simpa using hget, hpx, ?_⟩
      intro j hj y hy
      cases j with
      | zero =>
        simp only [List.getElem?_cons_zero, Option.some.injEq] at hy
        subst hy
        exact Bool.eq_false_iff.mpr hp
      | succ j' =>
        simp only [List.getElem?_cons_succ] at hy
        exact hmin j' (by omega) y hy

lemma findFirst_isSome {α : Type} (p : α → Bool) {xs : List α} {x : α}
    (hx : x ∈ xs) (hp : p x = true) : (findFirst p xs).isSome := by
  induction xs with
  | nil => simp at hx
  | cons a as ih =>
    rw [findFirst]
    by_cases hpa : p a
    · simp [hpa]
    · have hxas : x ∈ as := by
        rcases List.mem_cons.mp hx with rfl | hxs
        · exact absurd hp (by simp [hpa])
        · exact hxs
      simpa [hpa] using ih hxas

lemma vote_reach_phase {songs : List Song} {q si : String} {n : Int} {i : Nat}
    {song : Song} (ri : String)
    (hs : songs ≠ []) (hq : pyLower (pyStrip q) ≠ "")
    (hr : search songs (pyLower (pyStrip q)) ≠ [])
    (hn : pyInt si = some n)
    (hb : 0 ≤ n - 1 ∧ n - 1 < (search songs (pyLower (pyStrip q))).length)
    (hf : findFirst
        (songKeyMatch ((search songs (pyLower (pyStrip q))).getD (n - 1).toNat default))
        songs = some (i, song)) :
    vote_on_resource songs q si ri = voteResourcePhase songs i song ri := by
  rw [vote_on_resource]
  simp only [hs, hq, hr, hn, if_false, if_pos hb, hf]


lemma voteResourcePhase_voted {songs : List Song} {i : Nat} {song : Song} {ri : String}
    {v : Int} (h : (voteResourcePhase songs i song ri).outcome = .voted v) :
    ∃ k r, song.resources[k]? = some r ∧ v = r.votes + 1 ∧
      voteResourcePhase songs i song ri =
        ⟨songs.set i { song with resources := song.resources.set k { r with votes := r.votes + 1 } },
         .voted (r.votes + 1), true⟩ := by
  by_cases hre : song.resources = []
  · rw [voteResourcePhase, if_pos hre] at h
    simp at h
  · rcases hpi : pyInt ri with _ | m
    · rw [voteResourcePhase, if_neg hre] at h
      simp only [hpi] at h
      simp at h
    · by_cases h2 : 0 ≤ m - 1 ∧ m - 1 < (sort_resources song.resources).length
      · rcases hff : findFirst
            (resKeyMatch ((sort_resources song.resources).getD (m - 1).toNat default))
            song.resources with _ | ⟨k, r⟩
        · rw [voteResourcePhase, if_neg hre] at h
          simp only [hpi, if_pos h2, hff] at h
          simp at h
        · rw [voteResourcePhase, if_neg hre] at h ⊢
          simp only [hpi, if_pos h2, hff] at h ⊢
          obtain ⟨hget, -, -⟩ := findFirst_eq_some _ hff
          simp only [VoteOutcome.voted.injEq] at h
          exact ⟨k, r, hget, h.symm, rfl⟩
      · rw [voteResourcePhase, if_neg hre] at h
        simp only [hpi, if_neg h2] at h
        simp at h

lemma vote_voted_destruct {songs : List Song} {q si ri : String} {v : Int}
    (h : (vote_on_resource songs q si ri).outcome = .voted v) :
    ∃ i song, songs[i]? = some song ∧
      vote_on_resource songs q si ri = voteResourcePhase songs i song ri ∧
      (voteResourcePhase songs i song ri).outcome = .voted v := by
  by_cases hs : songs = []
  · rw [vote_on_resource, if_pos hs] at h
    simp at h
  · by_cases hq : pyLower (pyStrip q) = ""
    · rw [vote_on_resource, if_neg hs] at h
      simp only [hq, if_true] at h
      simp at h
    · by_cases hr : search songs (pyLower (pyStrip q)) = []
      · rw [vote_on_resource, if_neg hs] at h
        simp only [hq, if_false, hr, if_true] at h
        simp at h
      · rcases hn : pyInt si with _ | n
        · rw [vote_on_resource, if_neg hs] at h
          simp only [hq, if_false, hr, hn] at h
          simp at h
        · by_cases hb : 0 ≤ n - 1 ∧ n - 1 < (search songs (pyLower (pyStrip q))).length
          · rcases hff : findFirst
                (songKeyMatch ((search songs (pyLower (pyStrip q))).getD (n - 1).toNat default))
                songs with _ | ⟨i, song⟩
            · rw [vote_on_resource, if_neg hs] at h
              simp only [hq, if_false, hr, hn, if_pos hb, hff] at h
              simp at h
            · obtain ⟨hget, -, -⟩ := findFirst_eq_some _ hff
              have heq := vote_reach_phase ri hs hq hr hn hb hff
              rw [heq] at h
              exact ⟨i, song, hget, heq, h⟩
          · rw [vote_on_resource, if_neg hs] at h
            simp only [hq, if_false, hr, hn, if_neg hb] at h
            simp at h

/-- C4: a vote operation that completes successfully replaces the collection by
`songs.set i` of a single song, whose resource list is `set k` with the votes
of that one resource incremented by exactly 1; every other resource, every
other field, and the order of songs and resources are untouched (`List.set`
changes only position `i` resp. `k`), the reported new count is the old count
plus one (so repeated successful votes on the same resource strictly
increase it), and the collection is saved. -/
theorem vote_success_frame (songs : List Song) (q si ri : String) (v : Int)
    (h : (vote_on_resource songs q si ri).outcome = .voted v) :
    ∃ i song k r, songs[i]? = some song ∧ song.resources[k]? = some r ∧
      vote_on_resource songs q si ri =
        ⟨songs.set i { song with resources := song.resources.set k { r with votes := r.votes + 1 } },
         .voted (r.votes + 1), true⟩ ∧
      v = r.votes + 1 ∧
      (∀ j, j ≠ i → (vote_on_resource songs q si ri).songs[j]? = songs[j]?) ∧
      (∀ l, l ≠ k → (song.resources.set k { r with votes := r.votes + 1 })[l]? =
        song.resources[l]?) := by
  obtain ⟨i, song, hget, heq, hph⟩ := vote_voted_destruct h
  obtain ⟨k, r, hrget, hv, hpheq⟩ := voteResourcePhase_voted hph
  refine ⟨i, song, k, r, hget, hrget, by rw [heq, hpheq], hv, ?_, ?_⟩
  · intro j hj
    rw [heq, hpheq]
    simp only []
    exact List.getElem?_set_ne (fun hij => hj hij.symm)
  · intro l hl
    exact List.getElem?_set_ne (fun hkl => hl hkl.symm)

/-- Witness for `vote_success_frame`: a concrete successful vote, its
hypothesis discharged by evaluation. -/
theorem vote_success_frame_witness :
    ∃ i song k r,
      [Song.mk "Artist" "Song" "Artist" "Song" [⟨"vid.subs", "u1", "en", 0, none⟩]][i]? =
        some song ∧
      song.resources[k]? = some r ∧
      vote_on_resource [⟨"Artist", "Song", "Artist", "Song",
          [⟨"vid.subs", "u1", "en", 0, none⟩]⟩] "art" "1" "1" =
        ⟨[⟨"Artist", "Song", "Artist", "Song",
            [⟨"vid.subs", "u1", "en", 0, none⟩]⟩].set i
           { song with resources := song.resources.set k { r with votes := r.votes + 1 } },
         .voted (r.votes + 1), true⟩ ∧
      (1 : Int) = r.votes + 1 ∧
      (∀ j, j ≠ i →
        (vote_on_resource [⟨"Artist", "Song", "Artist", "Song",
            [⟨"vid.subs", "u1", "en", 0, none⟩]⟩] "art" "1" "1").songs[j]? =
          [Song.mk "Artist" "Song" "Artist" "Song" [⟨"vid.subs", "u1", "en", 0, none⟩]][j]?) ∧
      (∀ l, l ≠ k → (song.resources.set k { r with votes := r.votes + 1 })[l]? =
        song.resources[l]?) :=
  vote_success_frame [⟨"Artist", "Song", "Artist", "Song",
      [⟨"vid.subs", "u1", "en", 0, none⟩]⟩] "art" "1" "1" 1 (by decide)

/-- C6: once the vote flow reaches a selection step, a non-numeric input
(`ValueError`, message `Please enter a valid number.`) or an out-of-range
1-based index (message `Invalid selection.`) at that step aborts the
operation with the collection unchanged and no save — at the song-selection
step and at the resource-selection step alike. -/
theorem vote_invalid_selection_spec (songs : List Song) (q si ri : String)
    (hs : songs ≠ []) (hq : pyLower (pyStrip q) ≠ "")
    (hr : search songs (pyLower (pyStrip q)) ≠ []) :
    (pyInt si = none →
      vote_on_resource songs q si ri = ⟨songs, .valueError, false⟩)
    ∧ (∀ n, pyInt si = some n →
        ¬(0 ≤ n - 1 ∧ n - 1 < (search songs (pyLower (pyStrip q))).length) →
        vote_on_resource songs q si ri = ⟨songs, .invalidSongChoice, false⟩)
    ∧ (∀ n i song, pyInt si = some n →
        (0 ≤ n - 1 ∧ n - 1 < (search songs (pyLower (pyStrip q))).length) →
        findFirst (songKeyMatch ((search songs (pyLower (pyStrip q))).getD (n - 1).toNat default))
            songs = some (i, song) →
        song.resources ≠ [] →
        (pyInt ri = none →
          vote_on_resource songs q si ri = ⟨songs, .valueError, false⟩)
        ∧ (∀ m, pyInt ri = some m →
            ¬(0 ≤ m - 1 ∧ m - 1 < (sort_resources song.resources).length) →
            vote_on_resource songs q si ri = ⟨songs, .invalidResourceChoice, false⟩)) := by
  refine ⟨?_, ?_, ?_⟩
  · intro hn
    rw [vote_on_resource, if_neg hs]
    simp only [hq, if_false, hr, hn]
  · intro n hn hb
    rw [vote_on_resource, if_neg hs]
    simp only [hq, if_false, hr, hn, if_neg hb]
  · intro n i song hn hb hff hres
    have heq := vote_reach_phase ri hs hq hr hn hb hff
    constructor
    · intro hri
      rw [heq, voteResourcePhase, if_neg hres]
      simp only [hri]
    · intro m hri hb2
      rw [heq, voteResourcePhase, if_neg hres]
      simp only [hri, if_neg hb2]

/-- Witness for `vote_invalid_selection_spec`: concrete non-numeric and
out-of-range inputs at both steps, all hypotheses discharged by evaluation. -/
theorem vote_invalid_selection_spec_witness :
    vote_on_resource [⟨"Artist", "Song", "Artist", "Song",
        [⟨"vid.subs", "u1", "en", 0, none⟩]⟩] "art" "xyz" "1" =
      ⟨[⟨"Artist", "Song", "Artist", "Song", [⟨"vid.subs", "u1", "en", 0, none⟩]⟩],
       .valueError, false⟩ ∧
    vote_on_resource [⟨"Artist", "Song", "Artist", "Song",
        [⟨"vid.subs", "u1", "en", 0, none⟩]⟩] "art" "2" "1" =
      ⟨[⟨"Artist", "Song", "Artist", "Song", [⟨"vid.subs", "u1", "en", 0, none⟩]⟩],
       .invalidSongChoice, false⟩ ∧
    vote_on_resource [⟨"Artist", "Song", "Artist", "Song",
        [⟨"vid.subs", "u1", "en", 0, none⟩]⟩] "art" "1" "0" =
      ⟨[⟨"Artist", "Song", "Artist", "Song", [⟨"vid.subs", "u1", "en", 0, none⟩]⟩],
       .invalidResourceChoice, false⟩ :=
  ⟨(vote_invalid_selection_spec [⟨"Artist", "Song", "Artist", "Song",
        [⟨"vid.subs", "u1", "en", 0, none⟩]⟩] "art" "xyz" "1"
      (by decide) (by decide) (by decide)).1 (by decide),
   (vote_invalid_selection_spec [⟨"Artist", "Song", "Artist", "Song",
        [⟨"vid.subs", "u1", "en", 0, none⟩]⟩] "art" "2" "1"
      (by decide) (by decide) (by decide)).2.1 2 (by decide) (by decide),
   ((vote_invalid_selection_spec [⟨"Artist", "Song", "Artist", "Song",
        [⟨"vid.subs", "u1", "en", 0, none⟩]⟩] "art" "1" "0"
      (by decide) (by decide) (by decide)).2.2 1 0
      ⟨"Artist", "Song", "Artist", "Song", [⟨"vid.subs", "u1", "en", 0, none⟩]⟩
      (by decide) (by decide) (by decide) (by decide)).2 0 (by decide) (by decide)⟩

/-- C9: when the collection contains duplicate (artist, song) pairs, the vote
flow re-locates the user's selection to the FIRST song with that key in
collection order: the relocation loop returns the least matching index, and
both the 'no resources' abort and the vote increment then apply to that first
matching song — even when the user picked a later duplicate from the search
results. -/
theorem vote_duplicate_song_spec (songs : List Song) (q si ri : String) (n : Int)
    (i : Nat) (song : Song)
    (hs : songs ≠ []) (hq : pyLower (pyStrip q) ≠ "")
    (hr : search songs (pyLower (pyStrip q)) ≠ [])
    (hn : pyInt si = some n)
    (hb : 0 ≤ n - 1 ∧ n - 1 < (search songs (pyLower (pyStrip q))).length)
    (hff : findFirst
        (songKeyMatch ((search songs (pyLower (pyStrip q))).getD (n - 1).toNat default))
        songs = some (i, song)) :
    (songs[i]? = some song ∧
      songKeyMatch ((search songs (pyLower (pyStrip q))).getD (n - 1).toNat default) song = true ∧
      ∀ j, j < i → ∀ t, songs[j]? = some t →
        songKeyMatch ((search songs (pyLower (pyStrip q))).getD (n - 1).toNat default) t = false)
    ∧ (song.resources = [] → vote_on_resource songs q si ri = ⟨songs, .noResources, false⟩)
    ∧ (∀ v, (vote_on_resource songs q si ri).outcome = .voted v →
        ∃ k r, song.resources[k]? = some r ∧
          (vote_on_resource songs q si ri).songs =
            songs.set i
              { song with resources := song.resources.set k { r with votes := r.votes + 1 } }) := by
  have heq := vote_reach_phase ri hs hq hr hn hb hff
  refine ⟨findFirst_eq_some _ hff, ?_, ?_⟩
  · intro hres
    rw [heq, voteResourcePhase, if_pos hres]
  · intro v hv
    rw [heq] at hv ⊢
    obtain ⟨k, r, hk, hv', hpheq⟩ := voteResourcePhase_voted hv
    exact ⟨k, r, hk, by rw [hpheq]⟩

/-- Witness for `vote_duplicate_song_spec`: two songs share (artist, song); the
first has no resources, the second has one; the user selects the SECOND from
the search results, yet the vote flow aborts with 'no resources' because it
re-locates to the first duplicate. -/
theorem vote_duplicate_song_spec_witness :
    vote_on_resource
        [⟨"A", "S", "A", "S", []⟩, ⟨"A", "S", "A", "S", [⟨"t", "u", "en", 0, none⟩]⟩]
        "s" "2" "1" =
      ⟨[⟨"A", "S", "A", "S", []⟩, ⟨"A", "S", "A", "S", [⟨"t", "u", "en", 0, none⟩]⟩],
       .noResources, false⟩ :=
  (vote_duplicate_song_spec
      [⟨"A", "S", "A", "S", []⟩, ⟨"A", "S", "A", "S", [⟨"t", "u", "en", 0, none⟩]⟩]
      "s" "2" "1" 2 0 ⟨"A", "S", "A", "S", []⟩
      (by decide) (by decide) (by decide) (by decide) (by decide) (by decide)).2.1 (by decide)

/-- C10: when a song's stored resource list contains duplicate (type, url)
pairs, voting on a ranked entry increments the FIRST stored resource with that
(type, url) key: the relocation loop returns the least matching stored index —
whose resource may be a different one (e.g. different votes) than the ranked
entry the user selected. -/
theorem vote_duplicate_resource_spec (songs : List Song) (i : Nat) (song : Song)
    (ri : String) (m : Int) (k : Nat) (r : Resource)
    (hres : song.resources ≠ [])
    (hm : pyInt ri = some m)
    (hb : 0 ≤ m - 1 ∧ m - 1 < (sort_resources song.resources).length)
    (hff : findFirst (resKeyMatch ((sort_resources song.resources).getD (m - 1).toNat default))
        song.resources = some (k, r)) :
    (song.resources[k]? = some r ∧
      resKeyMatch ((sort_resources song.resources).getD (m - 1).toNat default) r = true ∧
      ∀ l, l < k → ∀ y, song.resources[l]? = some y →
        resKeyMatch ((sort_resources song.resources).getD (m - 1).toNat default) y = false)
    ∧ voteResourcePhase songs i song ri =
        ⟨songs.set i { song with resources := song.resources.set k { r with votes := r.votes + 1 } },
         .voted (r.votes + 1), true⟩ := by
  refine ⟨findFirst_eq_some _ hff, ?_⟩
  rw [voteResourcePhase, if_neg hres]
  simp only [hm, if_pos hb, hff]

/-- Witness for `vote_duplicate_resource_spec`: the stored list holds two
resources with the same (type, url) but 0 and 5 votes; ranking shows the
5-vote copy first; the user selects it, yet the increment lands on the first
stored copy (0 votes → 1), a different resource than the one selected. -/
theorem vote_duplicate_resource_spec_witness :
    (sort_resources [⟨"t", "u", "en", 0, none⟩, ⟨"t", "u", "en", 5, none⟩]).getD 0 default ≠
        Resource.mk "t" "u" "en" 0 none
    ∧ voteResourcePhase
        [⟨"B", "T", "B", "T", [⟨"t", "u", "en", 0, none⟩, ⟨"t", "u", "en", 5, none⟩]⟩] 0
        ⟨"B", "T", "B", "T", [⟨"t", "u", "en", 0, none⟩, ⟨"t", "u", "en", 5, none⟩]⟩ "1" =
      ⟨[⟨"B", "T", "B", "T", [⟨"t", "u", "en", 0, none⟩, ⟨"t", "u", "en", 5, none⟩]⟩].set 0
         { Song.mk "B" "T" "B" "T" [⟨"t", "u", "en", 0, none⟩, ⟨"t", "u", "en", 5, none⟩] with
           resources := [Resource.mk "t" "u" "en" 0 none, ⟨"t", "u", "en", 5, none⟩].set 0
             { Resource.mk "t" "u" "en" 0 none with votes := 0 + 1 } },
       .voted (0 + 1), true⟩ :=
  ⟨by decide,
   (vote_duplicate_resource_spec
      [⟨"B", "T", "B", "T", [⟨"t", "u", "en", 0, none⟩, ⟨"t", "u", "en", 5, none⟩]⟩] 0
      ⟨"B", "T", "B", "T", [⟨"t", "u", "en", 0, none⟩, ⟨"t", "u", "en", 5, none⟩]⟩ "1"
      1 0 ⟨"t", "u", "en", 0, none⟩
      (by decide) (by decide) (by decide) (by decide)).2⟩

/-- The parsed-JSON document model for the persisted `db.json` (numbers
restricted to integers, the only kind `save` ever writes). -/
inductive JValue where
  | str (s : String)
  | num (n : Int)
  | null
  | arr (items : List JValue)
  | obj (fields : List (String × JValue))

/-- `asdict` of one `Resource` (dataclass field order). -/
def resourceToJson (r : Resource) : JValue :=
  .obj [("type", .str r.type), ("url", .str r.url), ("language", .str r.language),
        ("votes", .num r.votes),
        ("content", match r.content with | none => .null | some c => .str c)]

/-- `asdict` of one `Song`, with `resources` replaced by the explicit
per-resource conversion, as `save` does. -/
def songToJson (s : Song) : JValue :=
  .obj [("artist", .str s.artist), ("song", .str s.song),
        ("artist_original", .str s.artist_original), ("song_original", .str s.song_original),
        ("resources", .arr (s.resources.map resourceToJson))]

/-- `SongDatabase.save`: the document written to `db.json` (UTF-8 with
`ensure_ascii=False`, so every string — non-ASCII included — is preserved
exactly; indentation does not affect the parsed value). -/
def saveDoc (songs : List Song) : JValue := .arr (songs.map songToJson)

/-- Python exceptions arising while rebuilding songs from a parsed document.
`keyError` (a required song field is missing) is caught by `load`;
`typeError` (`Resource(**res)` with a missing or unexpected keyword, a
non-mapping `res`, or iterating a non-iterable) and `attributeError`
(`.get` on a non-dict) are NOT in the `except` clause and propagate.
`outsideModel` flags documents whose present field values have the wrong
dynamic type: Python would build an ill-typed record there, which this typed
model does not represent; no claim depends on such documents. -/
inductive PyErr where
  | keyError
  | typeError
  | attributeError
  | outsideModel
  deriving DecidableEq, Repr

/-- Python dict lookup on a parsed JSON object (parsed objects have unique
keys, so first-match lookup is exact). -/
def jGet (fs : List (String × JValue)) (key : String) : Option JValue :=
  (fs.find? (fun f => f.1 == key)).map (fun f => f.2)

/-- Python iteration over a parsed JSON value: arrays yield their items, dicts
their keys (strings), strings their characters (1-character strings); numbers
and `None` raise `TypeError`. -/
def pyIter : JValue → Except PyErr (List JValue)
  | .arr xs => .ok xs
  | .obj fs => .ok (fs.map (fun f => .str f.1))
  | .str s => .ok (s.data.map (fun c => .str ⟨[c]⟩))
  | .num _ => .error .typeError
  | .null => .error .typeError

/-- `Resource(**res)`: `res` must be a mapping whose keys are drawn from the
five dataclass fields with `type`, `url` and `language` present (`votes`
defaults to 0, `content` to `None`); otherwise `TypeError`. -/
def loadResource : JValue → Except PyErr Resource
  | .obj fs =>
    if fs.any (fun f => !(["type", "url", "language", "votes", "content"].contains f.1)) then
      .error .typeError
    else
      match jGet fs "type", jGet fs "url", jGet fs "language" with
      | some (.str t), some (.str u), some (.str lang) =>
        (match jGet fs "votes", jGet fs "content" with
          | some (.num v), some .null => .ok ⟨t, u, lang, v, none⟩
          | some (.num v), some (.str c) => .ok ⟨t, u, lang, v, some c⟩
          | some (.num v), none => .ok ⟨t, u, lang, v, none⟩
          | none, some .null => .ok ⟨t, u, lang, 0, none⟩
          | none, some (.str c) => .ok ⟨t, u, lang, 0, some c⟩
          | none, none => .ok ⟨t, u, lang, 0, none⟩
          | _, _ => .error .outsideModel)
      | none, _, _ => .error .typeError
      | _, none, _ => .error .typeError
      | _, _, none => .error .typeError
      | _, _, _ => .error .outsideModel
  | _ => .error .typeError

/-- A list comprehension over fallible element construction: left to right,
first exception propagates. -/
def mapExcept {α β : Type} (f : α → Except PyErr β) : List α → Except PyErr (List β)
  | [] => .ok []
  | x :: xs => do
    let y ← f x
    let ys ← mapExcept f xs
    .ok (y :: ys)

/-- One iteration of the `for song_data in data` loop in `load`: the
`resources` list comprehension runs first (so its exceptions win), then the
four required fields are read (`KeyError` when absent); `.get` on a non-dict
raises `AttributeError`. -/
def loadSong : JValue → Except PyErr Song
  | .obj fs => do
    let resItems ← match jGet fs "resources" with
      | none => pure []
      | some v => pyIter v
    let resources ← mapExcept loadResource resItems
    match jGet fs "artist", jGet fs "song", jGet fs "artist_original",
        jGet fs "song_original" with
    | some (.str a), some (.str s), some (.str ao), some (.str so) =>
      .ok ⟨a, s, ao, so, resources⟩
    | none, _, _, _ => .error .keyError
    | _, none, _, _ => .error .keyError
    | _, _, none, _ => .error .keyError
    | _, _, _, none => .error .keyError
    | _, _, _, _ => .error .outsideModel
  | _ => .error .attributeError

/-- The rebuild loop of `load` on a parsed document. -/
def loadDoc (doc : JValue) : Except PyErr (List Song) := do
  let items ← pyIter doc
  mapExcept loadSong items

/-- What the persistence layer hands `load`: no file at `DB_FILE`, a file that
fails JSON parsing, or a parsed document. -/
inductive FileState where
  | missing
  | parseFailure
  | parsed (doc : JValue)

/-- Observable outcome of `SongDatabase.load`. -/
inductive LoadOutcome where
  | ok (songs : List Song)
  | resetEmpty
  | crash (e : PyErr)
  deriving DecidableEq, Repr

/-- `SongDatabase.load`, with `prior` the in-memory collection at call time
(empty in `__init__`).  Missing file: save the current collection and return.
Parse failure (`json.JSONDecodeError`) or a missing required song field
(`KeyError`): caught, an error is printed and the collection is reset to
empty.  Any other exception — notably the `TypeError` from a malformed or
field-deficient resource record — is not in the `except` clause and
crashes the program. -/
def load (prior : List Song) : FileState → LoadOutcome
  | .missing => .ok prior
  | .parseFailure => .resetEmpty
  | .parsed doc =>
    match loadDoc doc with
    | .ok songs => .ok songs
    | .error .keyError => .resetEmpty
    | .error e => .crash e

lemma loadResource_roundtrip (r : Resource) : loadResource (resourceToJson r) = .ok r := by
  cases r with
  | mk t u lang v c => cases c <;> simp [loadResource, resourceToJson, jGet]

lemma mapExcept_loadResource_roundtrip (rs : List Resource) :
    mapExcept loadResource (rs.map resourceToJson) = Except.ok rs := by
  induction rs with
  | nil => rfl
  | cons r rs ih => simp [mapExcept, loadResource_roundtrip, ih]; rfl

lemma loadSong_roundtrip (s : Song) : loadSong (songToJson s) = .ok s := by
  cases s with
  | mk a sg ao so rs =>
    show Except.bind (mapExcept loadResource (rs.map resourceToJson))
        (fun resources => Except.ok (Song.mk a sg ao so resources)) =
      Except.ok (Song.mk a sg ao so rs)
    rw [mapExcept_loadResource_roundtrip]
    rfl

lemma loadDoc_saveDoc (songs : List Song) : loadDoc (saveDoc songs) = .ok songs := by
  have h : mapExcept loadSong (songs.map songToJson) = Except.ok songs := by
    induction songs with
    | nil => rfl
    | cons s ss ih => simp [mapExcept, loadSong_roundtrip, ih]; rfl
  simpa [loadDoc, saveDoc, pyIter] using h

instance {ε α : Type} [DecidableEq ε] [DecidableEq α] : DecidableEq (Except ε α) := fun x y =>
  match x, y with
  | .ok a, .ok b =>
    if h : a = b then .isTrue (by rw [h]) else .isFalse (by simp [h])
  | .error e, .error f =>
    if h : e = f then .isTrue (by rw [h]) else .isFalse (by simp [h])
  | .ok _, .error _ => .isFalse (by simp)
  | .error _, .ok _ => .isFalse (by simp)

/-- C2: saving any in-memory collection — non-ASCII strings included: strings
pass through the `ensure_ascii=False` UTF-8 serialization unchanged, so the
statement quantifies over all strings — and loading the resulting document
reproduces an equal collection: the same songs with the same field values,
the same resources with the same field values, in the same order. -/
theorem save_load_roundtrip_spec (songs prior : List Song) :
    loadDoc (saveDoc songs) = .ok songs ∧
    load prior (.parsed (saveDoc songs)) = .ok songs := by
  refine ⟨loadDoc_saveDoc songs, ?_⟩
  simp [load, loadDoc_saveDoc songs]

/-- C5 (amended): `load` resets the collection to empty and returns normally
on a document parse failure and on a `KeyError` — a song record missing one of
its four required fields — and a document it can rebuild loads back normally.
Contrary to the original claim, a malformed or field-deficient RESOURCE record
raises a `TypeError` that the `except (json.JSONDecodeError, KeyError)` clause
does not catch: the operation crashes instead of resetting
(see `load_malformed_counterexample`). -/
theorem load_malformed_spec (prior : List Song) :
    load prior .parseFailure = .resetEmpty
    ∧ (∀ doc, loadDoc doc = .error .keyError → load prior (.parsed doc) = .resetEmpty)
    ∧ (∀ doc songs, loadDoc doc = .ok songs → load prior (.parsed doc) = .ok songs) := by
  refine ⟨rfl, ?_, ?_⟩
  · intro doc h
    simp [load, h]
  · intro doc songs h
    simp [load, h]

/-- Witness for `load_malformed_spec`: a concrete document whose only song
record is missing the required `artist` field resets the collection. -/
theorem load_malformed_spec_witness :
    load [] (.parsed (.arr [.obj [("song", .str "S"), ("artist_original", .str "A"),
        ("song_original", .str "S")]])) = .resetEmpty :=
  (load_malformed_spec []).2.1
    (.arr [.obj [("song", .str "S"), ("artist_original", .str "A"),
      ("song_original", .str "S")]]) (by decide)

/-- C5 counterexample: a persisted document whose single song record is
well-formed except that its resource record lacks the required `url` and
`language` fields.  `Resource(**res)` raises `TypeError`, which `load`'s
`except (json.JSONDecodeError, KeyError)` clause does not catch — the
operation crashes instead of resetting the collection to empty and returning
normally, refuting the claim for field-deficient resource records. -/
theorem load_malformed_counterexample :
    load []
        (.parsed (.arr [.obj [("artist", .str "A"), ("song", .str "S"),
          ("artist_original", .str "A"), ("song_original", .str "S"),
          ("resources", .arr [.obj [("type", .str "t")]])]])) =
      .crash .typeError := by decide

lemma voteResourcePhase_songs_characterize (songs : List Song) (i : Nat) (song : Song)
    (ri : String) :
    (voteResourcePhase songs i song ri).songs = songs ∨
    ∃ k r, song.resources[k]? = some r ∧
      (voteResourcePhase songs i song ri).songs =
        songs.set i { song with resources := song.resources.set k { r with votes := r.votes + 1 } } := by
  by_cases hre : song.resources = []
  · left; rw [voteResourcePhase, if_pos hre]
  · rcases hpi : pyInt ri with _ | m
    · left; rw [voteResourcePhase, if_neg hre]; simp only [hpi]
    · by_cases h2 : 0 ≤ m - 1 ∧ m - 1 < (sort_resources song.resources).length
      · rcases hff : findFirst
            (resKeyMatch ((sort_resources song.resources).getD (m - 1).toNat default))
            song.resources with _ | ⟨k, r⟩
        · left; rw [voteResourcePhase, if_neg hre]; simp only [hpi, if_pos h2, hff]
        · right
          obtain ⟨hget, -, -⟩ := findFirst_eq_some _ hff
          exact ⟨k, r, hget, by rw [voteResourcePhase, if_neg hre]; simp only [hpi, if_pos h2, hff]⟩
      · left; rw [voteResourcePhase, if_neg hre]; simp only [hpi, if_neg h2]

lemma vote_songs_characterize (songs : List Song) (q si ri : String) :
    (vote_on_resource songs q si ri).songs = songs ∨
    ∃ i song k r, songs[i]? = some song ∧ song.resources[k]? = some r ∧
      (vote_on_resource songs q si ri).songs =
        songs.set i { song with resources := song.resources.set k { r with votes := r.votes + 1 } } := by
  by_cases hs : songs = []
  · left; rw [vote_on_resource, if_pos hs]
  · by_cases hq : pyLower (pyStrip q) = ""
    · left; rw [vote_on_resource, if_neg hs]; simp only [hq, if_true]
    · by_cases hr : search songs (pyLower (pyStrip q)) = []
      · left; rw [vote_on_resource, if_neg hs]; simp only [hq, if_false, hr, if_true]
      · rcases hn : pyInt si with _ | n
        · left; rw [vote_on_resource, if_neg hs]; simp only [hq, if_false, hr, hn]
        · by_cases hb : 0 ≤ n - 1 ∧ n - 1 < (search songs (pyLower (pyStrip q))).length
          · rcases hff : findFirst
                (songKeyMatch ((search songs (pyLower (pyStrip q))).getD (n - 1).toNat default))
                songs with _ | ⟨i, song⟩
            · left; rw [vote_on_resource, if_neg hs]
              simp only [hq, if_false, hr, hn, if_pos hb, hff]
            · have heq := vote_reach_phase ri hs hq hr hn hb hff
              rw [heq]
              rcases voteResourcePhase_songs_characterize songs i song ri with h | ⟨k, r, hk, h⟩
              · left; exact h
              · right
                obtain ⟨hget, -, -⟩ := findFirst_eq_some _ hff
                exact ⟨i, song, k, r, hget, hk, h⟩
          · left; rw [vote_on_resource, if_neg hs]
            simp only [hq, if_false, hr, hn, if_neg hb]

lemma add_song_songs_characterize (songs : List Song) (a ao s so : String)
    (ris : List ResourceInput) :
    (add_song songs a ao s so ris).songs = songs ∨
    ∃ newSong, (add_song songs a ao s so ris).songs = songs ++ [newSong] ∧
      ∀ r ∈ newSong.resources, r.votes = 0 := by
  by_cases ha : pyStrip a = ""
  · left; simp [add_song, ha]
  · by_cases hsn : pyStrip s = ""
    · left; simp [add_song, ha, hsn]
    · right
      have hcase : (add_song songs a ao s so ris).songs =
          songs ++ [Song.mk (pyStrip a) (pyStrip s)
            (if pyStrip ao = "" then pyStrip a else pyStrip ao)
            (if pyStrip so = "" then pyStrip s else pyStrip so)
            (ris.map (fun ri => Resource.mk (pyStrip ri.type) (pyStrip ri.url)
              (if pyStrip ri.language = "" then "en" else pyStrip ri.language) 0
              (if pyStrip ri.content = "" then none else some (pyStrip ri.content))))] := by
        simp only [add_song, if_neg ha, if_neg hsn]
      refine ⟨_, hcase, ?_⟩
      intro r hr
      obtain ⟨ri, -, rfl⟩ := List.mem_map.mp hr
      rfl

/-- All resources of all songs carry non-negative votes. -/
def nonNegVotes (songs : List Song) : Prop :=
  ∀ song ∈ songs, ∀ r ∈ song.resources, 0 ≤ r.votes

/-- The states the running program can reach: it starts with an empty
collection, and every further state arises from an interactive `add_song`,
a `vote_on_resource`, or reloading its own saved file. -/
inductive Reachable : List Song → Prop where
  | init : Reachable []
  | add (songs : List Song) (a ao s so : String) (ris : List ResourceInput) :
      Reachable songs → Reachable (add_song songs a ao s so ris).songs
  | vote (songs : List Song) (q si ri : String) :
      Reachable songs → Reachable (vote_on_resource songs q si ri).songs
  | reload (songs t : List Song) : Reachable songs →
      load songs (.parsed (saveDoc songs)) = .ok t → Reachable t

/-- C8: in every reachable state every resource of every song has
`votes ≥ 0`, and every operation preserves this: the collection starts empty,
`add_song` only appends resources created with `votes = 0`,
`vote_on_resource`'s only mutation of an existing resource is the increment by
1, and reloading the saved file reproduces the state. -/
theorem votes_nonneg_invariant (songs : List Song) (h : Reachable songs) :
    nonNegVotes songs := by
  induction h with
  | init => intro song hs; simp at hs
  | add songs' a ao s so ris _ ih =>
    rcases add_song_songs_characterize songs' a ao s so ris with hcase | ⟨newSong, hcase, hzero⟩
    · rw [hcase]; exact ih
    · rw [hcase]
      intro song hs r hr
      rcases List.mem_append.mp hs with hs | hs
      · exact ih song hs r hr
      · simp only [List.mem_singleton] at hs
        subst hs
        rw [hzero r hr]
  | vote songs' q si ri _ ih =>
    rcases vote_songs_characterize songs' q si ri with hcase | ⟨i, song, k, r, hi, hk, hcase⟩
    · rw [hcase]; exact ih
    · rw [hcase]
      intro s hs r' hr'
      rcases List.mem_or_eq_of_mem_set hs with hs | rfl
      · exact ih s hs r' hr'
      · rcases List.mem_or_eq_of_mem_set hr' with hr' | rfl
        · exact ih song (List.getElem?_mem hi) r' hr'
        · have h0 := ih song (List.getElem?_mem hi) r (List.getElem?_mem hk)
          simp only []
          omega
  | reload songs' t _ hload ih =>
    have h2 : load songs' (.parsed (saveDoc songs')) = .ok songs' := by
      simp [load, loadDoc_saveDoc]
    rw [hload] at h2
    cases h2
    exact ih

/-- Witness for `votes_nonneg_invariant`: a concrete reachable state (add a
song with one resource, then vote on it). -/
theorem votes_nonneg_invariant_witness :
    nonNegVotes (vote_on_resource
      (add_song [] "A" "" "S" "" [⟨"t", "u", "", ""⟩]).songs "s" "1" "1").songs :=
  votes_nonneg_invariant _ (Reachable.vote _ "s" "1" "1"
    (Reachable.add [] "A" "" "S" "" [⟨"t", "u", "", ""⟩] Reachable.init))

lemma getD_mem_of_lt {α : Type} [Inhabited α] {l : List α} {n : Nat} (h : n < l.length) :
    l.getD n default ∈ l := by
  rw [List.getD_eq_getElem?_getD, List.getElem?_eq_getElem h]
  exact List.getElem_mem h

/-- The source's resource relocation loop always finds a match: the ranked
entry the user picked is a member of the stored list (ranking is a
permutation) and matches its own (type, url) key — so the fall-through
path after that loop is dead code. -/
lemma voteResourcePhase_ne_fallthrough (songs : List Song) (i : Nat) (song : Song)
    (ri : String) :
    (voteResourcePhase songs i song ri).outcome ≠ .unreachableFallthrough := by
  intro h
  by_cases hre : song.resources = []
  · rw [voteResourcePhase, if_pos hre] at h
    simp at h
  · rcases hpi : pyInt ri with _ | m
    · rw [voteResourcePhase, if_neg hre] at h
      simp only [hpi] at h
      simp at h
    · by_cases h2 : 0 ≤ m - 1 ∧ m - 1 < (sort_resources song.resources).length
      · rcases hff : findFirst
            (resKeyMatch ((sort_resources song.resources).getD (m - 1).toNat default))
            song.resources with _ | ⟨k, r⟩
        · have hlt : (m - 1).toNat < (sort_resources song.resources).length := by omega
          have hmem : (sort_resources song.resources).getD (m - 1).toNat default ∈
              song.resources :=
            ((List.perm_insertionSort resLe song.resources).mem_iff).mp (getD_mem_of_lt hlt)
          have hsome := findFirst_isSome
            (resKeyMatch ((sort_resources song.resources).getD (m - 1).toNat default))
            hmem (by simp [resKeyMatch])
          rw [hff] at hsome
          simp at hsome
        · rw [voteResourcePhase, if_neg hre] at h
          simp only [hpi, if_pos h2, hff] at h
          simp at h
      · rw [voteResourcePhase, if_neg hre] at h
        simp only [hpi, if_neg h2] at h
        simp at h

/-- The source's song relocation loop always finds a match (the selected
search result is a member of the collection and matches its own
(artist, song) key), and the resource loop always finds one too: the
`unreachableFallthrough` outcome never occurs. -/
lemma vote_ne_fallthrough (songs : List Song) (q si ri : String) :
    (vote_on_resource songs q si ri).outcome ≠ .unreachableFallthrough := by
  intro h
  by_cases hs : songs = []
  · rw [vote_on_resource, if_pos hs] at h
    simp at h
  · by_cases hq : pyLower (pyStrip q) = ""
    · rw [vote_on_resource, if_neg hs] at h
      simp only [hq, if_true] at h
      simp at h
    · by_cases hr : search songs (pyLower (pyStrip q)) = []
      · rw [vote_on_resource, if_neg hs] at h
        simp only [hq, if_false, hr, if_true] at h
        simp at h
      · rcases hn : pyInt si with _ | n
        · rw [vote_on_resource, if_neg hs] at h
          simp only [hq, if_false, hr, hn] at h
          simp at h
        · by_cases hb : 0 ≤ n - 1 ∧ n - 1 < (search songs (pyLower (pyStrip q))).length
          · rcases hff : findFirst
                (songKeyMatch ((search songs (pyLower (pyStrip q))).getD (n - 1).toNat default))
                songs with _ | ⟨i, song⟩
            · have hlt : (n - 1).toNat < (search songs (pyLower (pyStrip q))).length := by
                omega
              have hmem : (search songs (pyLower (pyStrip q))).getD (n - 1).toNat default ∈
                  songs :=
                (List.filter_sublist songs).mem (getD_mem_of_lt hlt)
              have hsome := findFirst_isSome
                (songKeyMatch ((search songs (pyLower (pyStrip q))).getD (n - 1).toNat default))
                hmem (by simp [songKeyMatch])
              rw [hff] at hsome
              simp at hsome
            · have heq := vote_reach_phase ri hs hq hr hn hb hff
              rw [heq] at h
              exact voteResourcePhase_ne_fallthrough songs i song ri h
          · rw [vote_on_resource, if_neg hs] at h
            simp only [hq, if_false, hr, hn, if_neg hb] at h
            simp at h
